import Mathlib

/-!
# Verification of the InkCanvas stroke lifecycle (BabylonjsInkSample)

Shallow embedding of `src/inkCanvas.ts` (class `InkCanvas`). The class keeps
two stacks of stroke meshes (`_paths` — the committed/undo stack — and
`_redoPaths`), a nullable in-progress stroke `_currentPath`, and the current
brush settings (`_currentSize`, `_currentColor`, `_currentMode`).

Modelling conventions, each justified against the source:

* The Babylon scene (`this._scene`) is an external collaborator.  Its
  `pick(pointerX, pointerY)` call, together with the deterministic
  local-coordinate conversion (`getWorldMatrix().invertToRef` +
  `Vector3.TransformCoordinates`), is modelled as an input oracle of type
  `Option Point`: `none` is a pick miss (`pickInfo?.hit` false), `some pt`
  is a hit whose resulting local coordinates are `pt`.  The controller never
  inspects anything else of the pick result.
* JS arrays used as stacks (`push`/`pop` at the array end) are Lean lists
  with the stack top at the HEAD: `push x` is `x :: l`, `pop` takes the head.
  Lengths and LIFO order are preserved by this convention.
* Scene mutations (`scene.removeMesh`, `scene.addMesh`, `path.dispose()`)
  are recorded in an effect trace returned alongside the new state.
* Methods typed `Boolean` in TS can fall through a bare `return;`, yielding
  `undefined`; the return value is therefore `Option Bool` with
  `none` = `undefined`, `some b` = an explicit `return b`.
* Object identity of a `PathMesh` is modelled by a fresh `id : Nat` drawn
  from a counter in the state; numeric fields use `Rat` (JS numbers, no
  overflow or rounding is relevant to any claim).
* Display-only mesh settings of `startPath` (`parent`, `renderingGroupId`,
  `material.freeze()`, `alwaysSelectAsActiveMesh`, `freezeWorldMatrix`) have
  no observable effect on the controller state machine and are not fields of
  the model; `isPickable` and the material are kept because claims refer to
  them.
-/

/-- A point in the drawing surface's local 2D coordinate frame, as produced
by the pick conversion in `startPath`/`extendPath`. -/
structure Point where
  x : Rat
  y : Rat
deriving DecidableEq, Repr

/-- `Color3` values as used for the brush color (r, g, b). -/
structure Color3 where
  r : Rat
  g : Rat
  b : Rat
deriving DecidableEq, Repr

/-- `Color3.White()`. -/
def Color3.white : Color3 := ⟨1, 1, 1⟩

/-- The `Brush` const enum of inkCanvas.ts: only `pen` exists. -/
inductive Brush
  | pen
deriving DecidableEq, Repr

/-- Result of `_createPathMaterial`: debug wireframe material, simple
material carrying the current color, or the rainbow material. -/
inductive PathMaterial
  | debugMat
  | simpleMat (color : Color3)
  | rainbowMat
deriving DecidableEq, Repr

/-- A `PathMesh` as the controller observes it: identity, the seed point
passed to the constructor, the points later appended via `addPointToPath`,
the radius option computed by `_createPath`, pickability and material. -/
structure PathMesh where
  id : Nat
  seed : Point
  pts : List Point
  radius : Rat
  isPickable : Bool
  material : Option PathMaterial
deriving DecidableEq, Repr

/-- `PathMesh.addPointToPath(x, y)`: appends the point to the path. -/
def PathMesh.addPointToPath (p : PathMesh) (x y : Rat) : PathMesh :=
  { p with pts := p.pts ++ [⟨x, y⟩] }

/-- Scene / resource effects issued by the controller. -/
inductive Effect
  | removeMesh (p : PathMesh)
  | addMesh (p : PathMesh)
  | disposeMesh (p : PathMesh)
deriving DecidableEq, Repr

/-- The mutable state of the `InkCanvas` class. `nextId` is the model's
fresh-identity counter for created meshes. -/
structure InkCanvas where
  debug : Bool
  paths : List PathMesh
  redoPaths : List PathMesh
  currentPath : Option PathMesh
  currentSize : Rat
  currentColor : Color3
  currentMode : Brush
  nextId : Nat
deriving DecidableEq, Repr

/-- The constructor's field initialisation: empty stacks, no current path,
size 5, white color, pen mode. -/
def InkCanvas.mk0 (debug : Bool) : InkCanvas :=
  { debug := debug
    paths := []
    redoPaths := []
    currentPath := none
    currentSize := 5
    currentColor := Color3.white
    currentMode := Brush.pen
    nextId := 0 }

/-- `_sizeScaleFactor = 0.01`. -/
def sizeScaleFactor : Rat := 1 / 100

/-- Pick oracle: `none` for a miss, `some pt` for a hit at local point `pt`. -/
abbrev PickResult := Option Point

/-- `_createPathMaterial()`: debug material when in debug mode, else simple
material with the current color in pen mode, else rainbow. -/
def InkCanvas.createPathMaterial (s : InkCanvas) : PathMaterial :=
  if s.debug then .debugMat
  else if s.currentMode = Brush.pen then .simpleMat s.currentColor
  else .rainbowMat

/-- `_createPath(x, y)`: builds a `PathMesh` seeded at `(x, y)` with
`radius = _currentSize * _sizeScaleFactor` (debug additionally sets
debounce/roundness options, which do not affect the controller state).
A fresh Babylon mesh is pickable until told otherwise. -/
def InkCanvas.createPath (s : InkCanvas) (x y : Rat) : PathMesh :=
  { id := s.nextId
    seed := ⟨x, y⟩
    pts := []
    radius := s.currentSize * sizeScaleFactor
    isPickable := true
    material := none }

/-- `startPath()`.  Guard: bare `return;` when `_currentPath` is set.  Then
`_redoPaths.length = 0` (BEFORE the pick), then the pick: on hit, create the
path, assign its material, mark it not pickable, store it as current and
return `true`; on miss return `false`. -/
def InkCanvas.startPath (s : InkCanvas) (pick : PickResult) :
    InkCanvas × List Effect × Option Bool :=
  if s.currentPath.isSome then
    (s, [], none)
  else
    let s1 := { s with redoPaths := [] }
    match pick with
    | some lp =>
        let path0 := s1.createPath lp.x lp.y
        let path := { path0 with
                        material := some s1.createPathMaterial
                        isPickable := false }
        ({ s1 with currentPath := some path, nextId := s1.nextId + 1 },
         [], some true)
    | none => (s1, [], some false)

/-- `extendPath()`.  Guard: bare `return;` when no current path.  Then the
pick: on hit, `addPointToPath` with the local coordinates and return `true`;
on miss return `false`. -/
def InkCanvas.extendPath (s : InkCanvas) (pick : PickResult) :
    InkCanvas × List Effect × Option Bool :=
  match s.currentPath with
  | none => (s, [], none)
  | some p =>
      match pick with
      | some lp =>
          ({ s with currentPath := some (p.addPointToPath lp.x lp.y) },
           [], some true)
      | none => (s, [], some false)

/-- `endPath()`: when a path is in progress, push it onto `_paths` and clear
`_currentPath`; otherwise do nothing. -/
def InkCanvas.endPath (s : InkCanvas) : InkCanvas × List Effect :=
  match s.currentPath with
  | none => (s, [])
  | some p => ({ s with paths := p :: s.paths, currentPath := none }, [])

/-- `undo()`: when idle and `_paths` nonempty, pop the top path, push it on
`_redoPaths` and `scene.removeMesh` it. -/
def InkCanvas.undo (s : InkCanvas) : InkCanvas × List Effect :=
  if s.currentPath.isNone then
    match s.paths with
    | [] => (s, [])
    | p :: rest =>
        ({ s with paths := rest, redoPaths := p :: s.redoPaths },
         [.removeMesh p])
  else (s, [])

/-- `redo()`: when idle and `_redoPaths` nonempty, pop its top path, push it
back on `_paths` and `scene.addMesh` it. -/
def InkCanvas.redo (s : InkCanvas) : InkCanvas × List Effect :=
  if s.currentPath.isNone then
    match s.redoPaths with
    | [] => (s, [])
    | p :: rest =>
        ({ s with redoPaths := rest, paths := p :: s.paths },
         [.addMesh p])
  else (s, [])

/-- The `while (path = this._paths.pop()) path.dispose();` loop of `clear`:
pops every path off the stack, disposing each in pop order. -/
def clearLoop : List PathMesh → List Effect
  | [] => []
  | p :: rest => Effect.disposeMesh p :: clearLoop rest

/-- `clear()`: when idle and `_paths` nonempty, pop-and-dispose every path
in `_paths`; `_redoPaths` is not touched. -/
def InkCanvas.clear (s : InkCanvas) : InkCanvas × List Effect :=
  if s.currentPath.isNone ∧ s.paths ≠ [] then
    ({ s with paths := [] }, clearLoop s.paths)
  else (s, [])

/-- `changeSize(size)`: `_currentSize = size`. -/
def InkCanvas.changeSize (s : InkCanvas) (size : Rat) : InkCanvas :=
  { s with currentSize := size }

/-- `usePen()`: `_currentMode = Brush.pen`. -/
def InkCanvas.usePen (s : InkCanvas) : InkCanvas :=
  { s with currentMode := Brush.pen }

/-- `changeColor(color)`: `_currentColor = color` followed by `this.usePen()`. -/
def InkCanvas.changeColor (s : InkCanvas) (color : Color3) : InkCanvas :=
  InkCanvas.usePen { s with currentColor := color }

/-- The public operations of the controller, with their pick inputs where a
pick happens. -/
inductive Op
  | opStart (pick : PickResult)
  | opExtend (pick : PickResult)
  | opEnd
  | opUndo
  | opRedo
  | opClear
  | opChangeSize (v : Rat)
  | opChangeColor (c : Color3)
  | opUsePen
deriving Repr

/-- One public call: resulting state (discarding effects and return value). -/
def InkCanvas.step (s : InkCanvas) : Op → InkCanvas
  | .opStart pick => (s.startPath pick).1
  | .opExtend pick => (s.extendPath pick).1
  | .opEnd => s.endPath.1
  | .opUndo => s.undo.1
  | .opRedo => s.redo.1
  | .opClear => s.clear.1
  | .opChangeSize v => s.changeSize v
  | .opChangeColor c => s.changeColor c
  | .opUsePen => s.usePen

/-- Run a sequence of public calls from a state. -/
def InkCanvas.run (s : InkCanvas) (ops : List Op) : InkCanvas :=
  ops.foldl InkCanvas.step s

/-! ## Helper lemmas and concrete sample states -/

/-- The pop-and-dispose loop of `clear` issues exactly one dispose per
element of the stack, in pop order. -/
theorem clearLoop_eq_map (l : List PathMesh) :
    clearLoop l = l.map Effect.disposeMesh := by
  induction l with
  | nil => rfl
  | cons p rest ih => simp [clearLoop, ih]

/-- The mesh a first successful `startPath` on a fresh non-debug canvas
creates when the pick lands at the local origin (default size 5, scale
factor 1/100, white pen material, marked not pickable). -/
def mesh0 : PathMesh :=
  { id := 0
    seed := ⟨0, 0⟩
    pts := []
    radius := 5 * sizeScaleFactor
    isPickable := false
    material := some (PathMaterial.simpleMat Color3.white) }

/-- A second such mesh, distinguishable from `mesh0` by its identity. -/
def mesh1 : PathMesh :=
  { id := 1
    seed := ⟨1, 0⟩
    pts := []
    radius := 5 * sizeScaleFactor
    isPickable := false
    material := some (PathMaterial.simpleMat Color3.white) }

/-- An idle canvas holding one undone stroke on the redo stack. -/
def redoState : InkCanvas := { InkCanvas.mk0 false with redoPaths := [mesh0] }

/-- An idle canvas with two committed strokes: `mesh0` created first,
`mesh1` created second (stack top is the list head). -/
def twoStrokeState : InkCanvas :=
  { InkCanvas.mk0 false with paths := [mesh1, mesh0] }

/-- A canvas in the Drawing state: `mesh0` is in progress. -/
def drawState : InkCanvas := { InkCanvas.mk0 false with currentPath := some mesh0 }

/-! ## C1 — `startPath` on a pick miss -/

/-- C1 counterexample: on an idle canvas whose redo stack holds one stroke,
`startPath` with a pick miss does return `false` and leaves `paths` and
`currentPath` alone, but it EMPTIES the redo stack (the code clears
`_redoPaths` before picking), so the state is not unchanged. -/
theorem c1_counterexample :
    (redoState.startPath none).2.2 = some false ∧
    (redoState.startPath none).1.redoPaths = [] ∧
    (redoState.startPath none).1 ≠ redoState := by
  refine ⟨rfl, rfl, ?_⟩
  simp [InkCanvas.startPath, redoState, InkCanvas.mk0]

/-- C1 (amended): from every Idle state, `startPath` on a pick miss returns
`false`, leaves the committed stack and the in-progress reference unchanged,
and issues no scene effect — but the redo stack is cleared, because
`_redoPaths.length = 0` runs before the pick. -/
theorem c1_start_miss_clears_redo (s : InkCanvas) (h : s.currentPath = none) :
    s.startPath none = ({ s with redoPaths := [] }, [], some false) := by
  simp [InkCanvas.startPath, h]

/-- C1 witness: the amended theorem applied to the concrete idle state with
a nonempty redo stack. -/
theorem c1_witness :
    redoState.startPath none = ({ redoState with redoPaths := [] }, [], some false) :=
  c1_start_miss_clears_redo redoState rfl

/-! ## C2 — two strokes, `undo(); undo(); redo()` -/

/-- C2 counterexample: with two committed strokes (`mesh0` created first,
`mesh1` second) the sequence `undo(); undo(); redo()` re-attaches
(`scene.addMesh`) the FIRST-created stroke `mesh0` — the most recently
undone one — not the second-created `mesh1` as the claim states. -/
theorem c2_counterexample :
    ((((twoStrokeState.undo).1.undo).1.redo).2 = [Effect.addMesh mesh0]) ∧
    mesh0 ≠ mesh1 ∧
    ((((twoStrokeState.undo).1.undo).1.redo).2 ≠ [Effect.addMesh mesh1]) := by
  refine ⟨rfl, ?_, ?_⟩ <;>
    simp [InkCanvas.undo, InkCanvas.redo, twoStrokeState, InkCanvas.mk0, mesh0, mesh1]

/-- C2 (amended): from an Idle state with exactly two committed strokes
(`p1` created first, `p2` second) and an empty redo stack, the sequence
`undo(); undo(); redo()` ends with the committed stack holding exactly the
first-created stroke `p1`, the redo stack holding exactly the second-created
stroke `p2`, and the `redo()` call re-attaching `p1` — the first-created,
most recently undone stroke (LIFO order of the redo stack). -/
theorem c2_undo_undo_redo (s : InkCanvas) (p1 p2 : PathMesh)
    (hc : s.currentPath = none) (hp : s.paths = [p2, p1]) (hr : s.redoPaths = []) :
    ((((s.undo).1.undo).1.redo).1.paths = [p1]) ∧
    ((((s.undo).1.undo).1.redo).1.redoPaths = [p2]) ∧
    ((((s.undo).1.undo).1.redo).2 = [Effect.addMesh p1]) := by
  simp [InkCanvas.undo, InkCanvas.redo, hc, hp, hr]

/-- C2 witness: the amended theorem applied to the concrete two-stroke
state. -/
theorem c2_witness :
    ((((twoStrokeState.undo).1.undo).1.redo).1.paths = [mesh0]) ∧
    ((((twoStrokeState.undo).1.undo).1.redo).1.redoPaths = [mesh1]) ∧
    ((((twoStrokeState.undo).1.undo).1.redo).2 = [Effect.addMesh mesh0]) :=
  c2_undo_undo_redo twoStrokeState mesh0 mesh1 rfl rfl rfl

/-! ## C3 — `clear` empties the committed stack -/

/-- C3: from every Idle state with a nonempty committed stack, `clear()`
leaves the committed stack empty, issues exactly one dispose call per popped
stroke (N in total, in pop order), and leaves the redo stack's contents
unchanged. -/
theorem c3_clear_disposes_all (s : InkCanvas)
    (hc : s.currentPath = none) (hn : s.paths ≠ []) :
    s.clear = ({ s with paths := [] }, s.paths.map Effect.disposeMesh) ∧
    (s.clear).2.length = s.paths.length ∧
    (s.clear).1.redoPaths = s.redoPaths := by
  have hl : clearLoop s.paths = s.paths.map Effect.disposeMesh := clearLoop_eq_map s.paths
  refine ⟨?_, ?_, ?_⟩ <;> simp [InkCanvas.clear, hc, hn, hl]

/-- C3 witness: clearing an idle canvas holding two committed strokes and a
redo entry disposes both strokes and keeps the redo entry. -/
theorem c3_witness :
    ({ twoStrokeState with redoPaths := [mesh0] }.clear =
      ({ { twoStrokeState with redoPaths := [mesh0] } with paths := [] },
        [mesh1, mesh0].map Effect.disposeMesh)) ∧
    ({ twoStrokeState with redoPaths := [mesh0] }.clear).2.length =
      [mesh1, mesh0].length ∧
    ({ twoStrokeState with redoPaths := [mesh0] }.clear).1.redoPaths = [mesh0] :=
  c3_clear_disposes_all { twoStrokeState with redoPaths := [mesh0] } rfl
    (by simp [twoStrokeState])

/-! ## C4 — `endPath`; `undo`; `redo` round-trip -/

/-- C4: from every Drawing state, committing the in-progress stroke `p` with
`endPath` and then running `undo(); redo()` is a round-trip: the final state
equals the post-`endPath` state exactly (in particular both stack sizes are
restored), the same stroke object `p` is back on top of the committed stack,
the `undo` detached exactly `p` and the `redo` re-attached exactly `p`. -/
theorem c4_endPath_undo_redo_roundtrip (s : InkCanvas) (p : PathMesh)
    (h : s.currentPath = some p) :
    (((s.endPath.1.undo).1.redo).1 = s.endPath.1) ∧
    (((s.endPath.1.undo).1.redo).2 = [Effect.addMesh p]) ∧
    ((s.endPath.1.undo).2 = [Effect.removeMesh p]) ∧
    s.endPath.1.paths.head? = some p := by
  refine ⟨?_, ?_, ?_, ?_⟩ <;> simp [InkCanvas.endPath, InkCanvas.undo, InkCanvas.redo, h]

/-- C4 witness: the round-trip applied to the concrete Drawing state holding
`mesh0` in progress. -/
theorem c4_witness :
    (((drawState.endPath.1.undo).1.redo).1 = drawState.endPath.1) ∧
    (((drawState.endPath.1.undo).1.redo).2 = [Effect.addMesh mesh0]) ∧
    ((drawState.endPath.1.undo).2 = [Effect.removeMesh mesh0]) ∧
    drawState.endPath.1.paths.head? = some mesh0 :=
  c4_endPath_undo_redo_roundtrip drawState mesh0 rfl

/-! ## C6 — history operations are no-ops while Drawing -/

/-- C6: while a stroke is in progress, `undo()`, `redo()` and `clear()` all
leave the state exactly unchanged and issue no scene effect (no pop, no
attach/detach, no dispose); in particular the in-progress stroke is left
untouched. -/
theorem c6_history_noop_while_drawing (s : InkCanvas) (p : PathMesh)
    (h : s.currentPath = some p) :
    s.undo = (s, []) ∧ s.redo = (s, []) ∧ s.clear = (s, []) ∧
    (s.undo).1.currentPath = some p ∧
    (s.redo).1.currentPath = some p ∧
    (s.clear).1.currentPath = some p := by
  refine ⟨?_, ?_, ?_, ?_, ?_, ?_⟩ <;>
    simp [InkCanvas.undo, InkCanvas.redo, InkCanvas.clear, h]

/-- C6 witness: the no-op facts on a concrete Drawing state that also has a
committed stroke and a redo stroke available. -/
theorem c6_witness :
    ({ drawState with paths := [mesh1], redoPaths := [mesh1] }.undo =
      ({ drawState with paths := [mesh1], redoPaths := [mesh1] }, [])) ∧
    ({ drawState with paths := [mesh1], redoPaths := [mesh1] }.redo =
      ({ drawState with paths := [mesh1], redoPaths := [mesh1] }, [])) ∧
    ({ drawState with paths := [mesh1], redoPaths := [mesh1] }.clear =
      ({ drawState with paths := [mesh1], redoPaths := [mesh1] }, [])) ∧
    ({ drawState with paths := [mesh1], redoPaths := [mesh1] }.undo).1.currentPath =
      some mesh0 ∧
    ({ drawState with paths := [mesh1], redoPaths := [mesh1] }.redo).1.currentPath =
      some mesh0 ∧
    ({ drawState with paths := [mesh1], redoPaths := [mesh1] }.clear).1.currentPath =
      some mesh0 :=
  c6_history_noop_while_drawing
    { drawState with paths := [mesh1], redoPaths := [mesh1] } mesh0 rfl

/-! ## C8 — `extendPath` behavior -/

/-- C8 counterexample: on the concrete Idle fresh canvas, `extendPath`
returns `undefined` (the guard is a bare `return;`), not `false` as the
claim states; the state is indeed unchanged. -/
theorem c8_counterexample :
    (InkCanvas.mk0 false).extendPath (some ⟨2, 3⟩) = (InkCanvas.mk0 false, [], none) ∧
    ((InkCanvas.mk0 false).extendPath (some ⟨2, 3⟩)).2.2 ≠ some false := by
  exact ⟨rfl, by simp [InkCanvas.extendPath, InkCanvas.mk0]⟩

/-- C8 (amended): `extendPath` in Idle does nothing and returns `undefined`
(a falsy value, but not the literal `false`); in Drawing with a pick miss it
returns `false` and leaves the in-progress stroke (and all state) unchanged;
in Drawing with a pick hit it appends the local point to the in-progress
stroke and returns `true`. -/
theorem c8_extendPath_behavior (s : InkCanvas) (p : PathMesh) (lp : Point) :
    (s.currentPath = none → ∀ pk : PickResult, s.extendPath pk = (s, [], none)) ∧
    (s.currentPath = some p → s.extendPath none = (s, [], some false)) ∧
    (s.currentPath = some p → s.extendPath (some lp) =
      ({ s with currentPath := some (p.addPointToPath lp.x lp.y) }, [], some true)) := by
  refine ⟨?_, ?_, ?_⟩ <;> intro h
  · intro pk; simp [InkCanvas.extendPath, h]
  · simp [InkCanvas.extendPath, h]
  · simp [InkCanvas.extendPath, h]

/-- C8 witness: the amended behavior at concrete states — the Idle fresh
canvas, and the Drawing state with `mesh0` in progress picked at (2, 3). -/
theorem c8_witness :
    ((InkCanvas.mk0 false).extendPath none = (InkCanvas.mk0 false, [], none)) ∧
    (drawState.extendPath none = (drawState, [], some false)) ∧
    (drawState.extendPath (some ⟨2, 3⟩) =
      ({ drawState with currentPath := some (mesh0.addPointToPath 2 3) }, [], some true)) :=
  ⟨(c8_extendPath_behavior (InkCanvas.mk0 false) mesh0 ⟨2, 3⟩).1 rfl none,
   (c8_extendPath_behavior drawState mesh0 ⟨2, 3⟩).2.1 rfl,
   (c8_extendPath_behavior drawState mesh0 ⟨2, 3⟩).2.2 rfl⟩

/-! ## C9 — `changeColor` also resets the mode to pen -/

/-- C9: `changeColor(c)` does not only set the brush color to `c`: it is the
composition of the color write with `usePen()`, so it always resets the
brush mode to `pen` as well (in this revision `Brush` has `pen` as its only
member, so the reset is the invariable outcome); all other fields are
untouched. -/
theorem c9_changeColor_resets_pen (s : InkCanvas) (c : Color3) :
    s.changeColor c = InkCanvas.usePen { s with currentColor := c } ∧
    s.changeColor c = { s with currentColor := c, currentMode := Brush.pen } ∧
    (s.changeColor c).currentMode = Brush.pen := by
  exact ⟨rfl, rfl, rfl⟩

/-! ## Reachability invariant: stack/in-progress separation and pickability -/

/-- Well-formedness of a controller state: every mesh the controller holds
carries an id below the fresh counter and has been marked not pickable, and
the in-progress mesh (if any) shares its id with no mesh in either stack. -/
def CanvasWF (s : InkCanvas) : Prop :=
  (∀ p ∈ s.paths, p.id < s.nextId ∧ p.isPickable = false) ∧
  (∀ p ∈ s.redoPaths, p.id < s.nextId ∧ p.isPickable = false) ∧
  (∀ p, s.currentPath = some p → p.id < s.nextId ∧ p.isPickable = false ∧
    (∀ q ∈ s.paths, q.id ≠ p.id) ∧ (∀ q ∈ s.redoPaths, q.id ≠ p.id))

/-- The freshly constructed canvas is well-formed. -/
theorem canvasWF_mk0 (d : Bool) : CanvasWF (InkCanvas.mk0 d) := by
  refine ⟨?_, ?_, ?_⟩ <;> simp [InkCanvas.mk0]

/-- `startPath` preserves well-formedness. -/
theorem canvasWF_startPath (s : InkCanvas) (pick : PickResult) (h : CanvasWF s) :
    CanvasWF (s.startPath pick).1 := by
  obtain ⟨h1, h2, h3⟩ := h
  cases hc : s.currentPath with
  | some p =>
      simp only [InkCanvas.startPath, hc, Option.isSome_some, if_true]
      exact ⟨h1, h2, h3⟩
  | none =>
      cases pick with
      | none =>
          simp only [InkCanvas.startPath, hc, Option.isSome_none,
            Bool.false_eq_true, if_false]
          refine ⟨h1, by simp, by simp⟩
      | some lp =>
          simp only [InkCanvas.startPath, hc, Option.isSome_none,
            Bool.false_eq_true, if_false]
          refine ⟨?_, by simp, ?_⟩
          · intro p hp
            exact ⟨Nat.lt_succ_of_lt (h1 p hp).1, (h1 p hp).2⟩
          · intro p hp
            simp only [Option.some.injEq] at hp
            refine ⟨?_, ?_, ?_, by simp⟩
            · simp [← hp, InkCanvas.createPath]
            · simp [← hp]
            · intro q hq
              have := (h1 q hq).1
              simp only [← hp, InkCanvas.createPath]
              omega

/-- `extendPath` preserves well-formedness. -/
theorem canvasWF_extendPath (s : InkCanvas) (pick : PickResult) (h : CanvasWF s) :
    CanvasWF (s.extendPath pick).1 := by
  obtain ⟨h1, h2, h3⟩ := h
  cases hc : s.currentPath with
  | none => simp only [InkCanvas.extendPath, hc]; exact ⟨h1, h2, by simp [hc]⟩
  | some p =>
      cases pick with
      | none => simp only [InkCanvas.extendPath, hc]; exact ⟨h1, h2, h3⟩
      | some lp =>
          simp only [InkCanvas.extendPath, hc]
          obtain ⟨hlt, hpk, hqp, hqr⟩ := h3 p hc
          refine ⟨h1, h2, ?_⟩
          intro q hq
          simp only [Option.some.injEq] at hq
          subst hq
          exact ⟨hlt, hpk, fun q hq => hqp q hq, fun q hq => hqr q hq⟩

/-- `endPath` preserves well-formedness. -/
theorem canvasWF_endPath (s : InkCanvas) (h : CanvasWF s) : CanvasWF s.endPath.1 := by
  obtain ⟨h1, h2, h3⟩ := h
  cases hc : s.currentPath with
  | none => simp only [InkCanvas.endPath, hc]; exact ⟨h1, h2, h3⟩
  | some p =>
      simp only [InkCanvas.endPath, hc]
      obtain ⟨hlt, hpk, _, _⟩ := h3 p hc
      refine ⟨?_, h2, by simp⟩
      intro q hq
      rcases List.mem_cons.mp hq with hq | hq
      · subst hq; exact ⟨hlt, hpk⟩
      · exact h1 q hq

/-- `undo` preserves well-formedness. -/
theorem canvasWF_undo (s : InkCanvas) (h : CanvasWF s) : CanvasWF s.undo.1 := by
  obtain ⟨h1, h2, h3⟩ := h
  cases hc : s.currentPath with
  | some p => simp only [InkCanvas.undo, hc]; exact ⟨h1, h2, h3⟩
  | none =>
      cases hp : s.paths with
      | nil => simp only [InkCanvas.undo, hc, hp]; exact ⟨by simp [hp], h2, by simp [hc]⟩
      | cons p rest =>
          simp only [InkCanvas.undo, hc, hp, Option.isNone_none, if_true]
          refine ⟨?_, ?_, by simp⟩
          · intro q hq; exact h1 q (hp ▸ List.mem_cons_of_mem p hq)
          · intro q hq
            rcases List.mem_cons.mp hq with hq | hq
            · exact hq ▸ h1 p (hp ▸ List.mem_cons_self p rest)
            · exact h2 q hq

/-- `redo` preserves well-formedness. -/
theorem canvasWF_redo (s : InkCanvas) (h : CanvasWF s) : CanvasWF s.redo.1 := by
  obtain ⟨h1, h2, h3⟩ := h
  cases hc : s.currentPath with
  | some p => simp only [InkCanvas.redo, hc]; exact ⟨h1, h2, h3⟩
  | none =>
      cases hr : s.redoPaths with
      | nil => simp only [InkCanvas.redo, hc, hr]; exact ⟨h1, by simp [hr], by simp [hc]⟩
      | cons p rest =>
          simp only [InkCanvas.redo, hc, hr, Option.isNone_none, if_true]
          refine ⟨?_, ?_, by simp⟩
          · intro q hq
            rcases List.mem_cons.mp hq with hq | hq
            · exact hq ▸ h2 p (hr ▸ List.mem_cons_self p rest)
            · exact h1 q hq
          · intro q hq; exact h2 q (hr ▸ List.mem_cons_of_mem p hq)

/-- `clear` preserves well-formedness. -/
theorem canvasWF_clear (s : InkCanvas) (h : CanvasWF s) : CanvasWF s.clear.1 := by
  obtain ⟨h1, h2, h3⟩ := h
  unfold InkCanvas.clear
  split
  · rename_i hg
    refine ⟨by simp, fun q hq => h2 q hq, ?_⟩
    intro q hq
    have hnone : s.currentPath = none := Option.isNone_iff_eq_none.mp hg.1
    rw [show ({ s with paths := [] } : InkCanvas).currentPath = s.currentPath from rfl,
      hnone] at hq
    exact absurd hq (by simp)
  · exact ⟨h1, h2, h3⟩

/-- Every public call preserves well-formedness. -/
theorem canvasWF_step (s : InkCanvas) (o : Op) (h : CanvasWF s) : CanvasWF (s.step o) := by
  cases o with
  | opStart pick => exact canvasWF_startPath s pick h
  | opExtend pick => exact canvasWF_extendPath s pick h
  | opEnd => exact canvasWF_endPath s h
  | opUndo => exact canvasWF_undo s h
  | opRedo => exact canvasWF_redo s h
  | opClear => exact canvasWF_clear s h
  | opChangeSize v => exact h
  | opChangeColor c => exact h
  | opUsePen => exact h

/-- Well-formedness holds along every run. -/
theorem canvasWF_run (s : InkCanvas) (ops : List Op) (h : CanvasWF s) : CanvasWF (s.run ops) := by
  induction ops generalizing s with
  | nil => exact h
  | cons o rest ih => exact ih (s.step o) (canvasWF_step s o h)

/-! ## C7 — second `startPath` while Drawing; single-stroke-in-progress -/

/-- The single public call that brings a fresh canvas into the Drawing
state: one successful `startPath` picked at the local origin. -/
def c7Ops : List Op := [Op.opStart (some ⟨0, 0⟩)]

/-- C7: in every reachable Drawing state (a stroke `p` in progress), a
further `startPath` call is a no-op: the state is returned unchanged with no
scene effect and no new stroke (the call falls through the guard, returning
`undefined`); moreover the in-progress stroke is held outside both stacks —
neither the committed nor the redo stack contains it. -/
theorem c7_second_start_noop (d : Bool) (ops : List Op) (p : PathMesh)
    (pick : PickResult)
    (h : ((InkCanvas.mk0 d).run ops).currentPath = some p) :
    ((InkCanvas.mk0 d).run ops).startPath pick = ((InkCanvas.mk0 d).run ops, [], none) ∧
    p ∉ ((InkCanvas.mk0 d).run ops).paths ∧
    p ∉ ((InkCanvas.mk0 d).run ops).redoPaths := by
  have hwf := canvasWF_run (InkCanvas.mk0 d) ops (canvasWF_mk0 d)
  obtain ⟨-, -, h3⟩ := hwf
  obtain ⟨-, -, hp, hr⟩ := h3 p h
  refine ⟨by simp [InkCanvas.startPath, h], ?_, ?_⟩
  · intro hmem; exact hp p hmem rfl
  · intro hmem; exact hr p hmem rfl

/-- C7 witness: after one successful `startPath` on a fresh canvas (the
in-progress stroke being `mesh0`), a second `startPath` picked at (1, 1) is
a no-op and `mesh0` is in neither stack. -/
theorem c7_witness :
    ((InkCanvas.mk0 false).run c7Ops).startPath (some ⟨1, 1⟩) =
      ((InkCanvas.mk0 false).run c7Ops, [], none) ∧
    mesh0 ∉ ((InkCanvas.mk0 false).run c7Ops).paths ∧
    mesh0 ∉ ((InkCanvas.mk0 false).run c7Ops).redoPaths :=
  c7_second_start_noop false c7Ops mesh0 (some ⟨1, 1⟩) rfl

/-! ## C10 — strokes are never pickable -/

/-- The calls that commit one stroke on a fresh canvas: a successful
`startPath` at the origin followed by `endPath`. -/
def c10Ops : List Op := [Op.opStart (some ⟨0, 0⟩), Op.opEnd]

/-- C10: in every reachable state, every stroke mesh the controller holds —
committed, undone, or in progress — has `isPickable = false` (set by
`startPath` right after creation, before the call returns). Given that the
external `scene.pick` honours `isPickable`, a subsequent `startPath` or
`extendPath` pick can therefore only hit the drawing surface beneath the
ink, never an existing stroke. -/
theorem c10_strokes_never_pickable (d : Bool) (ops : List Op) (p : PathMesh)
    (h : p ∈ ((InkCanvas.mk0 d).run ops).paths ∨
         p ∈ ((InkCanvas.mk0 d).run ops).redoPaths ∨
         ((InkCanvas.mk0 d).run ops).currentPath = some p) :
    p.isPickable = false := by
  have hwf := canvasWF_run (InkCanvas.mk0 d) ops (canvasWF_mk0 d)
  obtain ⟨h1, h2, h3⟩ := hwf
  rcases h with h | h | h
  · exact (h1 p h).2
  · exact (h2 p h).2
  · exact (h3 p h).2.1

/-- C10 witness: the stroke committed by `startPath`; `endPath` on a fresh
canvas is `mesh0`, a member of the committed stack, and it is not
pickable. -/
theorem c10_witness : mesh0.isPickable = false :=
  c10_strokes_never_pickable false c10Ops mesh0
    (Or.inl (by
      rw [show ((InkCanvas.mk0 false).run c10Ops).paths = [mesh0] from rfl]
      exact List.mem_singleton.mpr rfl))

/-! ## C5 — non-positive brush radius at stroke creation -/

/-- Error taxonomy entry relevant to stroke creation (spec section 7). -/
inductive InkError
  | invalidBrushParameter
deriving DecidableEq, Repr

/-- Outcome of a call that may throw: either a JS return value, or an error
propagating out of the call. -/
inductive CallResult
  | ret (b : Option Bool)
  | threw (e : InkError)
deriving DecidableEq, Repr

/-- Modelled from the spec: the `PathMesh`/`PathBufferData` constructor
(`src/path/pathMesh.ts` and `src/path/pathBufferData.ts`, which are not
among the available sources — `inkCanvas.ts` itself performs no validation)
"must fail with `InvalidBrushParameter`" when the radius option
`_currentSize * _sizeScaleFactor` is non-positive; otherwise it builds the
mesh exactly as `InkCanvas.createPath` does. -/
def InkCanvas.createPathChecked (s : InkCanvas) (x y : Rat) :
    Except InkError PathMesh :=
  if s.currentSize * sizeScaleFactor ≤ 0 then .error .invalidBrushParameter
  else .ok (s.createPath x y)

/-- `startPath()` with the spec-modelled constructor: identical control flow
to `InkCanvas.startPath`, except that a constructor error propagates out of
the call like a thrown exception — the mutation already performed at the
throw point (the redo-stack clear) persists, and `_currentPath` is never
assigned. -/
def InkCanvas.startPathChecked (s : InkCanvas) (pick : PickResult) :
    InkCanvas × List Effect × CallResult :=
  if s.currentPath.isSome then
    (s, [], .ret none)
  else
    let s1 := { s with redoPaths := [] }
    match pick with
    | some lp =>
        match s1.createPathChecked lp.x lp.y with
        | .error e => (s1, [], .threw e)
        | .ok path0 =>
            let path := { path0 with
                            material := some s1.createPathMaterial
                            isPickable := false }
            ({ s1 with currentPath := some path, nextId := s1.nextId + 1 },
             [], .ret (some true))
    | none => (s1, [], .ret (some false))

/-- An idle canvas with brush size 0 (e.g. after `changeSize(0)`) that holds
one committed stroke and one undone stroke on the redo stack. -/
def zeroSizeState : InkCanvas :=
  { InkCanvas.mk0 false with currentSize := 0, paths := [mesh1], redoPaths := [mesh0] }

/-- C5 counterexample: on the concrete idle canvas with brush size 0 and a
nonempty redo stack, `startPath` on a pick hit does fail with
`InvalidBrushParameter` and creates no stroke — but it does not leave all
existing state intact: the redo stack was already cleared before the
constructor ran, so the state after the failing call differs from the state
before it. -/
theorem c5_counterexample :
    (zeroSizeState.startPathChecked (some ⟨0, 0⟩)).2.2 =
      CallResult.threw InkError.invalidBrushParameter ∧
    (zeroSizeState.startPathChecked (some ⟨0, 0⟩)).1.redoPaths = [] ∧
    (zeroSizeState.startPathChecked (some ⟨0, 0⟩)).1 ≠ zeroSizeState := by
  have hz : zeroSizeState.currentSize * sizeScaleFactor ≤ 0 := by
    norm_num [zeroSizeState, InkCanvas.mk0]
  refine ⟨?_, ?_, ?_⟩ <;>
    simp [InkCanvas.startPathChecked, InkCanvas.createPathChecked, hz,
      zeroSizeState, InkCanvas.mk0]

/-- C5 (amended, spec-modelled): from every Idle state, if the brush size
set by `changeSize` is non-positive (so the radius passed to the stroke
constructor is non-positive), `startPath` on a pick hit fails with
`InvalidBrushParameter`: the error propagates out of that call only, no
stroke is created, the controller remains Idle, and the committed stack and
every existing stroke are untouched — but the redo stack has already been
cleared by the time the constructor runs, exactly as on any other
`startPath` call. -/
theorem c5_invalid_radius (s : InkCanvas) (size : Rat) (lp : Point)
    (hc : s.currentPath = none) (hsz : size ≤ 0) :
    (s.changeSize size).startPathChecked (some lp) =
      ({ s with currentSize := size, redoPaths := [] }, [],
        CallResult.threw InkError.invalidBrushParameter) := by
  have hr : size * sizeScaleFactor ≤ 0 := by
    have h100 : (0 : Rat) ≤ sizeScaleFactor := by norm_num [sizeScaleFactor]
    exact mul_nonpos_iff.mpr (Or.inr ⟨hsz, h100⟩)
  simp [InkCanvas.changeSize, InkCanvas.startPathChecked,
    InkCanvas.createPathChecked, hc, hr]

/-- C5 witness: `changeSize(0)` on the concrete idle two-stack state, then
`startPath` picked at the origin, throws `InvalidBrushParameter` and leaves
the committed stack with its stroke while the redo stack is cleared. -/
theorem c5_witness :
    ({ InkCanvas.mk0 false with paths := [mesh1], redoPaths := [mesh0]
      }.changeSize 0).startPathChecked (some ⟨0, 0⟩) =
      ({ { InkCanvas.mk0 false with paths := [mesh1], redoPaths := [mesh0] } with
          currentSize := 0, redoPaths := [] }, [],
        CallResult.threw InkError.invalidBrushParameter) :=
  c5_invalid_radius { InkCanvas.mk0 false with paths := [mesh1], redoPaths := [mesh0] }
    0 ⟨0, 0⟩ rfl le_rfl
